import Mathlib

/-!
Verification of the cf-icon worker (icon discovery / ranking / resolution
pipeline).  The repository contains three worker variants:

* `src/src/index.ts`, lines 1-269 ("variant 1"): `scoreCandidate`,
  `findBestIcon` (HTMLRewriter collector + manifest + /favicon.ico +
  Google fallback) and a handler that fetches the single best URL.
* `src/src/index.ts`, lines 270-464 ("variant 2"): `calculateScore` and a
  ranked resolution loop over icons obtained from an external API.
* `src/unnamed/part_000` (`lib.ts`): `getFavicons` / `fetchIconList`;
  `src/unnamed/part_001` (`index.ts` of the lib variant): `calculateScore`
  plus the same ranked resolution loop, fed by `fetchIconList`.

External capabilities (network fetch, URL parsing/resolution, image
codecs, percent-decoding) are modelled as oracle fields of an `Env`
record; everything the claims are about (scoring, ranking, the collector
state machine, the resolution loop, the fallback chain, base64, SVG
dimension injection) is translated directly from the TypeScript source.
-/

namespace CfIcon

/-! ## JavaScript string primitives -/

/-- Boolean list-prefix test (used to model `String.prototype.startsWith`). -/
def isPrefixOfL : List Char → List Char → Bool
  | [], _ => true
  | _ :: _, [] => false
  | a :: as, b :: bs => a == b && isPrefixOfL as bs

/-- Substring containment over char lists (models `String.prototype.includes`). -/
def containsL (sub : List Char) : List Char → Bool
  | [] => isPrefixOfL sub []
  | h :: t => isPrefixOfL sub (h :: t) || containsL sub t

/-- Models `s.startsWith(p)`. -/
def jsStartsWith (s p : String) : Bool := isPrefixOfL p.data s.data

/-- Models `s.endsWith(p)`. -/
def jsEndsWith (s p : String) : Bool := isPrefixOfL p.data.reverse s.data.reverse

/-- Models `s.includes(sub)`. -/
def jsIncludes (s sub : String) : Bool := containsL sub.data s.data

/-- Models `s.toLowerCase()` (ASCII-faithful). -/
def lowerStr (s : String) : String := ⟨s.data.map Char.toLower⟩

/-- Models a case-insensitive regex test `s.match(/sub/i)` for a literal,
already-lowercase pattern `sub`. -/
def jsIncludesI (s sub : String) : Bool := containsL sub.data (s.data.map Char.toLower)

/-- Case-insensitive first-occurrence replacement over char lists
(models `s.replace(/pat/i, repl)` for a literal pattern). -/
def replaceFirstIL (pat repl : List Char) : List Char → List Char
  | [] => []
  | c :: cs =>
    if isPrefixOfL (pat.map Char.toLower) ((c :: cs).map Char.toLower) then
      repl ++ List.drop pat.length (c :: cs)
    else c :: replaceFirstIL pat repl cs

/-- Models `s.replace(/pat/i, repl)` (first match only, literal replacement). -/
def jsReplaceFirstI (s pat repl : String) : String := ⟨replaceFirstIL pat.data repl.data s.data⟩

/-- Models `String.prototype.split(sep)` for a single-character separator. -/
def splitOnChar (sep : Char) : List Char → List (List Char)
  | [] => [[]]
  | c :: cs =>
    if c = sep then [] :: splitOnChar sep cs
    else
      match splitOnChar sep cs with
      | [] => [[c]]
      | h :: t => (c :: h) :: t

/-- Models `s.split(sep)` for a one-character separator string. -/
def jsSplit (sep : Char) (s : String) : List String :=
  (splitOnChar sep s.data).map fun l => (⟨l⟩ : String)

/-- Numeric value of a run of decimal digit characters. -/
def digitsVal (l : List Char) : Nat := l.foldl (fun n c => n * 10 + (c.toNat - 48)) 0

/-- White space accepted by `parseInt` (ASCII subset). -/
def isJsSpace (c : Char) : Bool :=
  c == ' ' || c == '\t' || c == '\n' || c == '\r' || c.toNat == 11 || c.toNat == 12

/-- Models `parseInt(s, 10)`: skip leading white space, optional sign, then the
longest decimal-digit prefix; `none` models the `NaN` result. -/
def parseIntJS (s : String) : Option Int :=
  let l := s.data.dropWhile isJsSpace
  let sign : Int := match l with
    | '-' :: _ => -1
    | _ => 1
  let l2 := match l with
    | '-' :: r => r
    | '+' :: r => r
    | _ => l
  let ds := l2.takeWhile Char.isDigit
  if ds = [] then none else some (sign * (digitsVal ds : Int))

/-- Match at the start of the list only: greedy digits, literal `x`, greedy
digits, mirroring one attempt of the regex `(\d+)x(\d+)`. -/
def tryWxH (l : List Char) : Option (Nat × Nat) :=
  let d1 := l.takeWhile Char.isDigit
  if d1 = [] then none
  else
    match l.dropWhile Char.isDigit with
    | 'x' :: r2 =>
      let d2 := r2.takeWhile Char.isDigit
      if d2 = [] then none else some (digitsVal d1, digitsVal d2)
    | _ => none

/-- Leftmost match of `(\d+)x(\d+)` (as in `sizes.match(/(\d+)x(\d+)/)`):
the regex engine tries each start position in order; backtracking inside a
greedy digit run can never turn a failure into a success here because the
required `x` is not a digit. -/
def matchWxH : List Char → Option (Nat × Nat)
  | [] => none
  | c :: cs =>
    match tryWxH (c :: cs) with
    | some p => some p
    | none => matchWxH cs

/-! ## Data model -/

/-- Icon record used by `calculateScore` / `fetchIconList` (`types.ts`). -/
structure Icon where
  href : String
  sizes : String
deriving DecidableEq

/-- Argument record of `scoreCandidate` (variant 1): href plus nullable
`rel` / `sizes` / `type` attributes. -/
structure LinkCand where
  href : String
  rel : Option String
  sizes : Option String
  type : Option String
deriving DecidableEq

/-! ## The two scoring functions -/

/-- Truthy-guarded `rel?.includes(sub)`. -/
def optIncludes (o : Option String) (sub : String) : Bool :=
  match o with
  | some s => jsIncludes s sub
  | none => false

/-- Vector-format test used by `scoreCandidate`:
`href.endsWith('.svg') || type === 'image/svg+xml'`. -/
def isVectorCand (c : LinkCand) : Bool :=
  jsEndsWith c.href ".svg" || c.type == some "image/svg+xml"

/-- The `rel`-based additive term of `scoreCandidate`. -/
def relScore (rel : Option String) : Int :=
  if optIncludes rel "apple-touch-icon" then 650
  else if rel == some "manifest-icon" then 650
  else if optIncludes rel "icon" then 100
  else 0

/-- The `sizes`-based additive term of `scoreCandidate` (`if (sizes)` is a JS
truthiness test, so the empty string contributes nothing). -/
def sizeScore (sizes : Option String) : Int :=
  match sizes with
  | none => 0
  | some sz =>
    if sz = "" then 0
    else if sz = "any" then 500
    else
      match matchWxH sz.data with
      | some (w, _) => (w : Int)
      | none => 0

/-- `scoreCandidate` from `src/src/index.ts` (variant 1): format bonus, rel
bonus and size bonus are additive, then the `rel === 'og:image'` check
overwrites the accumulated score with the flat value 50. -/
def scoreCandidate (c : LinkCand) : Int :=
  let fmt : Int := if isVectorCand c then 1000 else 0
  let base := fmt + relScore c.rel + sizeScore c.sizes
  if c.rel == some "og:image" then 50 else base

/-- Rule 1 of `calculateScore`: format from the (lowercased) href. -/
def fmtScoreF (href : String) : Int :=
  if jsStartsWith href "data:" then -1000
  else if jsEndsWith href ".svg" then 1000
  else if jsEndsWith href ".png" then 500
  else if jsEndsWith href ".ico" then 200
  else 100

/-- Rule 2 of `calculateScore`: `parseInt(sizes.split('x')[0], 10)` bonus,
guarded by the truthy / `!== 'unknown'` test (`NaN` contributes nothing). -/
def sizeScoreF (sizes : String) : Int :=
  if sizes ≠ "" ∧ sizes ≠ "unknown" then
    match parseIntJS ((jsSplit 'x' sizes).headD "") with
    | some n => n
    | none => 0
  else 0

/-- Rule 3 of `calculateScore`: source reputation and keywords. -/
def srcScoreF (href : String) : Int :=
  (if jsIncludes href "apple-touch-icon" then 50 else 0) +
  (if jsIncludes href "google.com/s2/favicons" then 30 else 0) +
  (if jsIncludes href "icons.duckduckgo.com" then -20 else 0)

/-- `calculateScore` from `src/unnamed/part_001` (identical in variant 2):
keyed off the lowercased href itself plus the `sizes` string. -/
def calculateScore (icon : Icon) : Int :=
  let href := lowerStr icon.href
  fmtScoreF href + sizeScoreF icon.sizes + srcScoreF href

/-! ## Base64 (`btoa` / `atob`) -/

/-- The base64 alphabet. -/
def b64tbl : List Char := "ABCDEFGHIJKLMNOPQRSTUVWXYZabcdefghijklmnopqrstuvwxyz0123456789+/".data

/-- Character for a sextet. -/
def b64char (n : Nat) : Char := b64tbl.getD n 'A'

/-- Position of a character in the alphabet, accumulator form. -/
def findIdxFrom (c : Char) : List Char → Nat → Option Nat
  | [], _ => none
  | h :: t, i => if h == c then some i else findIdxFrom c t (i + 1)

/-- Sextet value of an alphabet character (`none` for a non-alphabet char). -/
def b64index (c : Char) : Option Nat := findIdxFrom c b64tbl 0

/-- Base64-encode a byte list, three bytes at a time, padding with `=`. -/
def b64encodeBytes : List Nat → List Char
  | [] => []
  | [a] => [b64char (a / 4), b64char (a % 4 * 16), '=', '=']
  | [a, b] => [b64char (a / 4), b64char (a % 4 * 16 + b / 16), b64char (b % 16 * 4), '=']
  | a :: b :: c :: rest =>
    b64char (a / 4) :: b64char (a % 4 * 16 + b / 16) ::
      b64char (b % 16 * 4 + c / 64) :: b64char (c % 64) :: b64encodeBytes rest

/-- Decode two leading sextets into one byte. -/
def dec2 (c0 c1 : Char) : Option (List Nat) :=
  match b64index c0, b64index c1 with
  | some i0, some i1 => some [i0 * 4 + i1 / 16]
  | _, _ => none

/-- Decode three leading sextets into two bytes. -/
def dec3 (c0 c1 c2 : Char) : Option (List Nat) :=
  match b64index c0, b64index c1, b64index c2 with
  | some i0, some i1, some i2 => some [i0 * 4 + i1 / 16, i1 % 16 * 16 + i2 / 4]
  | _, _, _ => none

/-- Decode a full group of four sextets into three bytes. -/
def dec4 (c0 c1 c2 c3 : Char) : Option (List Nat) :=
  match b64index c0, b64index c1, b64index c2, b64index c3 with
  | some i0, some i1, some i2, some i3 =>
    some [i0 * 4 + i1 / 16, i1 % 16 * 16 + i2 / 4, i2 % 4 * 64 + i3]
  | _, _, _, _ => none

/-- Base64-decode a char list (`none` models the `InvalidCharacterError` of
`atob`; white-space stripping is not modelled since no caller needs it). -/
def b64decodeChars : List Char → Option (List Nat)
  | [] => some []
  | [_] => none
  | [c0, c1] => dec2 c0 c1
  | [c0, c1, c2] => dec3 c0 c1 c2
  | [c0, c1, c2, c3] =>
    if c3 = '=' then (if c2 = '=' then dec2 c0 c1 else dec3 c0 c1 c2)
    else dec4 c0 c1 c2 c3
  | c0 :: c1 :: c2 :: c3 :: c4 :: rest =>
    match dec4 c0 c1 c2 c3, b64decodeChars (c4 :: rest) with
    | some bs, some more => some (bs ++ more)
    | _, _ => none

/-- Models `btoa(s)`: `none` when some char code exceeds 255 (the
`InvalidCharacterError` case). -/
def btoa (s : String) : Option String :=
  if s.data.all (fun c => c.toNat < 256) then some ⟨b64encodeBytes (s.data.map Char.toNat)⟩
  else none

/-- Models `atob(s)`. -/
def atob (s : String) : Option String :=
  (b64decodeChars s.data).map fun bs => (⟨bs.map Char.ofNat⟩ : String)

/-! ## `encodeURIComponent` -/

/-- Characters `encodeURIComponent` leaves unescaped. -/
def euriUnreserved (c : Char) : Bool :=
  c.isAlphanum || c == '-' || c == '_' || c == '.' || c == '!' || c == '~' ||
    c == '*' || c == '\'' || c == '(' || c == ')'

/-- UTF-8 bytes of a code point. -/
def utf8Bytes (n : Nat) : List Nat :=
  if n < 128 then [n]
  else if n < 2048 then [192 + n / 64, 128 + n % 64]
  else if n < 65536 then [224 + n / 4096, 128 + n / 64 % 64, 128 + n % 64]
  else [240 + n / 262144, 128 + n / 4096 % 64, 128 + n / 64 % 64, 128 + n % 64]

/-- Upper-case hex digit. -/
def hexDigit (n : Nat) : Char := "0123456789ABCDEF".data.getD n '0'

/-- Percent-escape of one byte. -/
def pctByte (b : Nat) : List Char := ['%', hexDigit (b / 16), hexDigit (b % 16)]

/-- Models `encodeURIComponent(s)`. -/
def encodeURIComponent (s : String) : String :=
  ⟨s.data.foldr
    (fun c acc =>
      (if euriUnreserved c then [c]
       else (utf8Bytes c.toNat).foldr (fun b a => pctByte b ++ a) []) ++ acc)
    []⟩

/-! ## Remaining data model -/

/-- An RGBA raster buffer (`ImageData`-shaped). -/
structure Raster where
  data : List Nat
  width : Nat
  height : Nat
deriving DecidableEq

/-- One embedded image produced by `decode-ico`. -/
structure IcoImg where
  data : List Nat
  width : Nat
  height : Nat
deriving DecidableEq

/-- Raster view of an embedded ICO image
(`{ data: new Uint8ClampedArray(i.data), width: i.width, height: i.height }`). -/
def icoRaster (i : IcoImg) : Raster := ⟨i.data, i.width, i.height⟩

/-- A `link`/`meta` element as seen by the HTMLRewriter collector: tag name
plus its attributes (`getAttribute` returns the first binding or null). -/
structure Element where
  tagName : String
  attrs : List (String × String)
deriving DecidableEq

/-- Models `element.getAttribute(a)`. -/
def elemGet (e : Element) (a : String) : Option String :=
  (e.attrs.find? fun p => p.1 == a).map Prod.snd

/-- A scored icon candidate as pushed by `findBestIcon` (variant 1). -/
structure IconCandidate where
  url : String
  rel : Option String
  sizes : Option String
  type : Option String
  score : Int
deriving DecidableEq

/-- Collector state: the outer-scope `candidates` array and `manifestUrl`. -/
structure CollectState where
  candidates : List IconCandidate
  manifestUrl : Option String
deriving DecidableEq

/-- Outcome of one `fetch` (the oracle returns `none` when the fetch throws). -/
structure FResp where
  ok : Bool
  status : Nat
  contentType : Option String
  contentLength : Option String
  textBody : String
  bytes : List Nat
deriving DecidableEq

/-- Outcome of the HTML discovery fetch: status data plus the stream of
`link, meta` elements the HTMLRewriter would visit, in document order. -/
structure PageResp where
  ok : Bool
  contentType : Option String
  elements : List Element
deriving DecidableEq

/-- One entry of a web-app manifest's `icons` array. -/
structure MIcon where
  src : Option String
  sizes : Option String
  type : Option String
deriving DecidableEq

/-- Outcome of the manifest fetch; `icons = none` covers a JSON parse error
or a missing/non-array `icons` field (all yield no candidates). -/
structure MResp where
  ok : Bool
  icons : Option (List MIcon)
deriving DecidableEq

/-- Outcome of a third-party source probe in `fetchIconList`. -/
structure SrcResp where
  ok : Bool
  status : Nat
  contentType : Option String
deriving DecidableEq

/-- A parsed URL (the fields the workers read). -/
structure URLm where
  href : String
  hostname : String
deriving DecidableEq

/-- A response body: text or binary. -/
inductive BodyM where
  | text (s : String)
  | bin (b : List Nat)
deriving DecidableEq

/-- An outgoing `Response` (cache-control headers elided). -/
structure ResponseM where
  status : Nat
  contentType : Option String
  body : BodyM
deriving DecidableEq

/-- External capabilities: network fetches, URL parsing/resolution,
percent-decoding and the WASM image codecs, all request-scoped oracles.
`getFavicons` returns the `icons` field of `part_000`'s `getFavicons`
(that function never throws into its caller: its own catch returns an
empty list, and a throw from its `new URL(url)` is caught by
`fetchIconList`, which also adds nothing — both are the `[]` case). -/
structure Env where
  fetchResult : String → Option FResp
  headFetch : String → Option FResp
  pageFetch : String → Option PageResp
  manifestFetch : String → Option MResp
  getFavicons : String → List Icon
  probe : String → Option SrcResp
  decodeURIComponent : String → Option String
  parseURL : String → Option URLm
  resolveStr : String → String → Option String
  pngDecode : List Nat → Option Raster
  jpegDecode : List Nat → Option Raster
  webpDecode : List Nat → Option Raster
  icoDecode : List Nat → Option (List IcoImg)
  resize : Raster → Nat → Nat → Option Raster
  pngEncode : Raster → Option (List Nat)

/-! ## Stable descending sort (models `arr.sort((a, b) => b.score - a.score)`) -/

/-- Insert into a descending-sorted list, after all entries with an equal or
higher key (stability). -/
def insertByDesc (key : α → Int) (c : α) : List α → List α
  | [] => [c]
  | d :: ds => if key d < key c then c :: d :: ds else d :: insertByDesc key c ds

/-- Stable sort, descending by `key`. -/
def sortByDesc (key : α → Int) (l : List α) : List α :=
  l.foldl (fun acc c => insertByDesc key c acc) []

/-! ## The `IconCollector` state machine (variant 1, `findBestIcon`) -/

/-- The `rel && (rel.includes('icon') || rel.includes('apple-touch-icon'))`
guard. -/
def relIconLike (rel : Option String) : Bool :=
  optIncludes rel "icon" || optIncludes rel "apple-touch-icon"

/-- The shared `if (href) { try { score; push } catch { skip } }` tail of
`IconCollector.element`: a falsy href pushes nothing, a URL-resolution
throw is caught and skips only this candidate. -/
def pushCandidate (env : Env) (base : String) (st : CollectState)
    (href : Option String) (rel sizes type : Option String) : CollectState :=
  match href with
  | none => st
  | some h =>
    if h = "" then st
    else
      match env.resolveStr h base with
      | none => st
      | some u =>
        { st with candidates :=
            st.candidates ++ [⟨u, rel, sizes, type, scoreCandidate ⟨h, rel, sizes, type⟩⟩] }

/-- One `IconCollector.element` call.  `Except.error` models an uncaught
throw inside the handler (the unprotected `new URL` of the manifest
branch), which rejects the rewriter's transform promise and ends the scan
with the state collected so far. -/
def collectStep (env : Env) (base : String) (st : CollectState) (e : Element) :
    Except CollectState CollectState :=
  if e.tagName == "link" then
    let rel := elemGet e "rel"
    if relIconLike rel then
      .ok (pushCandidate env base st (elemGet e "href") rel (elemGet e "sizes") (elemGet e "type"))
    else if rel == some "manifest" then
      match elemGet e "href" with
      | none => .ok st
      | some h =>
        if h = "" then .ok st
        else
          match env.resolveStr h base with
          | none => .error st
          | some u => .ok { st with manifestUrl := some u }
    else .ok st
  else if e.tagName == "meta" then
    if elemGet e "property" == some "og:image" then
      .ok (pushCandidate env base st (elemGet e "content") (some "og:image") none none)
    else .ok st
  else .ok st

/-- Run the collector over the element stream; an uncaught handler throw
stops the scan but keeps the state gathered so far (the outer catch of
step 1 swallows it). -/
def runCollect (env : Env) (base : String) (st : CollectState) : List Element → CollectState
  | [] => st
  | e :: es =>
    match collectStep env base st e with
    | .ok st' => runCollect env base st' es
    | .error st' => st'

/-- Candidates extracted from a manifest's `icons` array.  An entry without
a truthy `src` is skipped; a `new URL(src, manifestUrl)` throw aborts the
remaining entries (the whole loop sits in one try), keeping earlier ones. -/
def collectManifest (env : Env) (mu : String) : List MIcon → List IconCandidate
  | [] => []
  | i :: rest =>
    match i.src with
    | none => collectManifest env mu rest
    | some src =>
      if src = "" then collectManifest env mu rest
      else
        match env.resolveStr src mu with
        | none => []
        | some u =>
          ⟨u, some "manifest-icon", i.sizes, i.type,
            scoreCandidate ⟨src, some "manifest-icon", i.sizes, i.type⟩⟩ ::
            collectManifest env mu rest

/-- Manifest resolution (step 2 of `findBestIcon`): fetch failure, non-ok
status, JSON failure or a missing `icons` array all yield no candidates. -/
def manifestCandidates (env : Env) (mu : String) : List IconCandidate :=
  match env.manifestFetch mu with
  | none => []
  | some mr =>
    if mr.ok then
      match mr.icons with
      | none => []
      | some icons => collectManifest env mu icons
    else []

/-- Steps 1-2 of `findBestIcon`: page scan (only when the page fetch
succeeds with an HTML content type) plus manifest candidates. -/
def discover (env : Env) (targetUrl : URLm) : CollectState :=
  let st0 : CollectState := ⟨[], none⟩
  let st :=
    match env.pageFetch targetUrl.href with
    | none => st0
    | some pr =>
      if pr.ok ∧ optIncludes pr.contentType "text/html" then
        runCollect env targetUrl.href st0 pr.elements
      else st0
  match st.manifestUrl with
  | none => st
  | some mu => { st with candidates := st.candidates ++ manifestCandidates env mu }

/-- The Google fallback URL of step 5. -/
def googleFallback (targetUrl : URLm) : String :=
  "https://www.google.com/s2/favicons?domain=" ++ targetUrl.hostname ++ "&sz=128"

/-- `findBestIcon` (variant 1): pick the top of the stable descending sort
when any candidate was discovered, else try a HEAD request on
`/favicon.ico`, else fall back to Google's favicon service. -/
def findBestIcon (env : Env) (targetUrl : URLm) : String :=
  let cands := (discover env targetUrl).candidates
  if cands.isEmpty then
    match env.resolveStr "/favicon.ico" targetUrl.href with
    | none => googleFallback targetUrl
    | some fav =>
      match env.headFetch fav with
      | none => googleFallback targetUrl
      | some r => if r.ok then fav else googleFallback targetUrl
  else
    ((sortByDesc (fun c => c.score) cands).headD ⟨"", none, none, none, 0⟩).url

/-! ## `fetchIconList` (`src/unnamed/part_000`) -/

/-- `charAt(0).toUpperCase()`. -/
def firstLetterUpper (d : String) : String :=
  match d.data with
  | [] => ""
  | c :: _ => String.singleton c.toUpper

/-- The placeholder monogram SVG markup (template literal, verbatim). -/
def svgContent (domain : String) : String :=
  "\n      <svg width=\"100\" height=\"100\" xmlns=\"http://www.w3.org/2000/svg\">\n        <rect width=\"100%\" height=\"100%\" fill=\"#cccccc\"/>\n        <text x=\"50%\" y=\"50%\" font-size=\"48\" text-anchor=\"middle\" dominant-baseline=\"middle\" fill=\"#000000\">"
    ++ firstLetterUpper domain ++ "</text>\n      </svg>\n    "

/-- The two third-party lookup URLs tried by step 3 of `fetchIconList`. -/
def thirdPartySources (domain : String) : List String :=
  ["https://icons.duckduckgo.com/ip3/" ++ encodeURIComponent domain ++ ".ico",
   "https://www.google.com/s2/favicons?domain=" ++ encodeURIComponent domain ++ "&sz=128"]

/-- The acceptance test of a third-party probe:
`response.ok && response.status === 200 && contentType?.startsWith('image/')`
(a probe throw, `env.probe = none`, is caught and skipped). -/
def probeOk (env : Env) (s : String) : Bool :=
  match env.probe s with
  | none => false
  | some r =>
    r.ok && r.status == 200 &&
      (match r.contentType with
       | some c => jsStartsWith c "image/"
       | none => false)

/-- Steps 1-2 of `fetchIconList`: the HTTPS markup icons, with HTTP tried
only when HTTPS yielded none (`if (allIcons.length === 0)`). -/
def markupIcons (env : Env) (domain : String) : List Icon :=
  if (env.getFavicons ("https://" ++ domain)).isEmpty then env.getFavicons ("http://" ++ domain)
  else env.getFavicons ("https://" ++ domain)

/-- The candidate list after step 3 of `fetchIconList`: markup icons plus
(unconditionally) every third-party source whose probe succeeded. -/
def preIcons (env : Env) (domain : String) : List Icon :=
  markupIcons env domain ++
    ((thirdPartySources domain).filter (probeOk env)).map fun s => ⟨s, "unknown"⟩

/-- `fetchIconList(domain)`: HTTPS markup icons, then HTTP only when HTTPS
yielded none, then (unconditionally) the third-party probes, and a
placeholder data-URI SVG only when everything else produced nothing.
`Except.error` models the only uncaught throw (`btoa` on a non-Latin-1
monogram). -/
def fetchIconList (env : Env) (domain : String) : Except Unit (List Icon) :=
  if (preIcons env domain).isEmpty then
    match btoa (svgContent domain) with
    | none => .error ()
    | some b64Svg => .ok [⟨"data:image/svg+xml;base64," ++ b64Svg, "100x100"⟩]
  else .ok (preIcons env domain)

/-! ## The resolution loop (`part_001`; identical in index.ts variant 2
up to the resize target) -/

/-- The unconditional injection applied to a data-URI SVG:
`svgText.replace(/<svg/i, '<svg width="40" height="40"')`. -/
def injectWH40both (s : String) : String :=
  jsReplaceFirstI s "<svg" "<svg width=\"40\" height=\"40\""

/-- The conditional injection applied to a fetched SVG body: add `width`
then `height` to the first `<svg` only when the attribute is absent. -/
def injectWH (s : String) : String :=
  let s1 := if jsIncludesI s "width=" then s else jsReplaceFirstI s "<svg" "<svg width=\"40\""
  if jsIncludesI s1 "height=" then s1 else jsReplaceFirstI s1 "<svg" "<svg height=\"40\""

/-- The plausible-length test:
`parseInt(headers.get('Content-Length') || '0', 10)` then reject when
`contentLength > 0 && contentLength < 100` (`NaN` rejects nothing). -/
def validLen (cl : Option String) : Bool :=
  match parseIntJS (cl.getD "0") with
  | some n => !(n > 0 && n < 100)
  | none => true

/-- `decodedIcos.reduce((a, b) => a.width > b.width ? a : b)` on a
non-empty list, written head/tail. -/
def bestIco (h : IcoImg) (t : List IcoImg) : IcoImg :=
  t.foldl (fun a b => if a.width > b.width then a else b) h

/-- `imageResponse.headers.get('Content-Type') || ''`. -/
def ctOf (r : FResp) : String := r.contentType.getD ""

/-- The bitmap decode dispatch of the resolution loop (`png` / `jpeg` /
`webp` / ICO variants; `none` covers both an unsupported format's
`continue` and a decoder throw caught by the loop's catch). -/
def decodeDispatch (env : Env) (ct : String) (bytes : List Nat) : Option Raster :=
  if jsIncludes ct "png" then env.pngDecode bytes
  else if jsIncludes ct "jpeg" then env.jpegDecode bytes
  else if jsIncludes ct "webp" then env.webpDecode bytes
  else if jsIncludes ct "ico" || jsIncludes ct "x-icon" then
    match env.icoDecode bytes with
    | some (h :: t) => some (icoRaster (bestIco h t))
    | _ => none
  else none

/-- One iteration of the resolution loop of `part_001` (`none` = the
`continue` cases: data-URI decode failure, fetch throw, non-ok status,
non-image content type, implausibly small declared length, unsupported
bitmap format, or a decode/resize/encode throw caught by the loop's
catch). -/
def processIcon (env : Env) (icon : Icon) : Option ResponseM :=
  if jsStartsWith icon.href "data:image/svg+xml" then
    match (jsSplit ',' icon.href).get? 1 with
    | none => none
    | some b64 =>
      match atob b64 with
      | none => none
      | some svgText => some ⟨200, some "image/svg+xml", .text (injectWH40both svgText)⟩
  else
    match env.fetchResult icon.href with
    | none => none
    | some r =>
      if !r.ok then none
      else if !(jsStartsWith (ctOf r) "image/") then none
      else if !(validLen r.contentLength) then none
      else if jsIncludes (ctOf r) "svg" then
        some ⟨200, some "image/svg+xml", .text (injectWH r.textBody)⟩
      else
        match decodeDispatch env (ctOf r) r.bytes with
        | none => none
        | some img =>
          match env.resize img 40 40 with
          | none => none
          | some rimg =>
            match env.pngEncode rimg with
            | none => none
            | some out => some ⟨200, some "image/png", .bin out⟩

/-- Walk the ranked list, returning the first iteration that produced a
response (`for ... of sortedIcons` with early `return`). -/
def resolveLoop (env : Env) : List Icon → Option ResponseM
  | [] => none
  | i :: rest =>
    match processIcon env i with
    | some r => some r
    | none => resolveLoop env rest

/-- The 404 response for an empty icon list in the `fetchIconList` variant. -/
def respNoIcons : ResponseM := ⟨404, none, .text "No icons found from API."⟩

/-- The scheme-prefixing step shared by both handlers:
`if (!path.startsWith('http://') && !path.startsWith('https://')) path = 'https://' + path`. -/
def prefixScheme (t : String) : String :=
  if jsStartsWith t "http://" || jsStartsWith t "https://" then t else "https://" ++ t

/-- The ranked icon order walked by the loop:
`icons.map(icon => ({icon, score})).sort((a, b) => b.score - a.score)`
followed by the `for (const { icon } of sortedIcons)` projection. -/
def rankedIcons (icons : List Icon) : List Icon :=
  (sortByDesc (fun p => p.2) (icons.map fun i => (i, calculateScore i))).map Prod.fst

/-- Steps 2-4 of the `part_001` handler, after the domain has been parsed. -/
def pipeline1 (env : Env) (domain : String) : Except Unit ResponseM :=
  match fetchIconList env domain with
  | .error e => .error e
  | .ok icons =>
    if icons.isEmpty then .ok respNoIcons
    else
      match resolveLoop env (rankedIcons icons) with
      | some r => .ok r
      | none => .ok ⟨404, none, .text ("Could not find or process a valid icon for " ++ domain ++ ".")⟩

/-- The full `part_001` handler from the request pathname on.  A
`decodeURIComponent` throw is uncaught (`Except.error`); a `new URL`
throw on the prefixed path is caught and mapped to a 400. -/
def handler1 (env : Env) (pathname : String) : Except Unit ResponseM :=
  match env.decodeURIComponent (pathname.drop 1) with
  | none => .error ()
  | some path0 =>
    if path0 = "" then
      .ok ⟨400, none, .text "Please provide a domain or URL in the path, e.g., /example.com"⟩
    else
      match env.parseURL (prefixScheme path0) with
      | none => .ok ⟨400, none, .text ("Invalid domain or URL provided: " ++ prefixScheme path0)⟩
      | some u => pipeline1 env u.hostname

/-- The 404 response of variant 1's catch-all (error detail elided). -/
def notFoundV1 (u : URLm) : ResponseM :=
  ⟨404, none, .text ("Could not find or process favicon for " ++ u.href ++ ".")⟩

/-- `iconResponse.headers.get('Content-Type') || 'image/png'` (variant 1). -/
def ctOfV1 (r : FResp) : String := r.contentType.getD "image/png"

/-- Variant 1's test for a content type its decode dispatch handles; any
other content type is passed through unmodified. -/
def supportedV1 (ct : String) : Bool :=
  jsIncludes ct "png" || jsIncludes ct "jpeg" || jsIncludes ct "webp" ||
    jsIncludes ct "ico" || jsIncludes ct "x-icon" || jsIncludes ct "vnd.microsoft.icon"

/-- Variant 1's decode dispatch (its ICO branch also accepts the
`vnd.microsoft.icon` MIME variant). -/
def decodeDispatchV1 (env : Env) (ct : String) (bytes : List Nat) : Option Raster :=
  if jsIncludes ct "png" then env.pngDecode bytes
  else if jsIncludes ct "jpeg" then env.jpegDecode bytes
  else if jsIncludes ct "webp" then env.webpDecode bytes
  else
    match env.icoDecode bytes with
    | some (h :: t) => some (icoRaster (bestIco h t))
    | _ => none

/-- The handler of `src/src/index.ts` variant 1: query parameter in, one
`findBestIcon` URL fetched, decoded by content type, resized to 32 and
re-encoded as PNG; unsupported content types pass through unmodified; the
`new URL(targetParam)` on line 209 sits outside the try block, so its
throw escapes the handler (`Except.error`). -/
def handlerV1 (env : Env) (urlParam : Option String) : Except Unit ResponseM :=
  match urlParam with
  | none => .ok ⟨400, none, .text "Missing url parameter"⟩
  | some t0 =>
    match env.parseURL (prefixScheme t0) with
    | none => .error ()
    | some targetUrl =>
      let iconUrl := findBestIcon env targetUrl
      match env.fetchResult iconUrl with
      | none => .ok (notFoundV1 targetUrl)
      | some r =>
        if !r.ok then .ok (notFoundV1 targetUrl)
        else if !(supportedV1 (ctOfV1 r)) then .ok ⟨200, some (ctOfV1 r), .bin r.bytes⟩
        else
          match decodeDispatchV1 env (ctOfV1 r) r.bytes with
          | none => .ok (notFoundV1 targetUrl)
          | some img =>
            match env.resize img 32 32 with
            | none => .ok (notFoundV1 targetUrl)
            | some rimg =>
              match env.pngEncode rimg with
              | none => .ok (notFoundV1 targetUrl)
              | some out => .ok ⟨200, some "image/png", .bin out⟩

/-! ## Claim-support definitions -/

/-- The manifest href an element contributes, exactly when
`IconCollector.element` takes the manifest-assignment path. -/
def manifestHrefOf (e : Element) : Option String :=
  if e.tagName == "link" then
    let rel := elemGet e "rel"
    if relIconLike rel then none
    else if rel == some "manifest" then
      match elemGet e "href" with
      | none => none
      | some h => if h = "" then none else some h
    else none
  else none

/-- Declared width of a variant-1 candidate: the first capture of
`sizes.match(/(\d+)x(\d+)/)` when present. -/
def declaredWidth (c : LinkCand) : Option Nat :=
  c.sizes.bind fun sz => (matchWxH sz.data).map Prod.fst

/-- Vector-format test of `calculateScore`'s rule set (lowercased href
ends in `.svg`). -/
def isVectorIcon (i : Icon) : Bool := jsEndsWith (lowerStr i.href) ".svg"

/-- Declared width in `calculateScore`'s rule set:
`parseInt(sizes.split('x')[0], 10)` under the truthy / non-`'unknown'`
guard, `none` for the `NaN` case. -/
def declaredWidthF (i : Icon) : Option Int :=
  if i.sizes ≠ "" ∧ i.sizes ≠ "unknown" then parseIntJS ((jsSplit 'x' i.sizes).headD "") else none

/-- Every network-facing oracle fails (fetch throws / discovery empty). -/
def allFail (env : Env) : Prop :=
  (∀ s, env.getFavicons s = []) ∧ (∀ s, env.probe s = none) ∧
  (∀ s, env.fetchResult s = none) ∧ (∀ s, env.pageFetch s = none) ∧
  (∀ s, env.headFetch s = none) ∧ (∀ s, env.manifestFetch s = none)

/-- The response the `part_001` handler produces from the synthesized
placeholder candidate. -/
def placeholderResp (domain : String) : ResponseM :=
  ⟨200, some "image/svg+xml", .text (injectWH40both (svgContent domain))⟩

/-- Byte view of an ASCII string. -/
def strBytes (s : String) : List Nat := s.data.map Char.toNat

/-! ## Concrete environments for counterexamples and witnesses -/

/-- Environment in which every oracle fails or returns nothing. -/
def envFail : Env where
  fetchResult := fun _ => none
  headFetch := fun _ => none
  pageFetch := fun _ => none
  manifestFetch := fun _ => none
  getFavicons := fun _ => []
  probe := fun _ => none
  decodeURIComponent := fun s => some s
  parseURL := fun _ => none
  resolveStr := fun _ _ => none
  pngDecode := fun _ => none
  jpegDecode := fun _ => none
  webpDecode := fun _ => none
  icoDecode := fun _ => none
  resize := fun _ _ _ => none
  pngEncode := fun _ => none

/-- The parsed target used by the variant-1 scenarios. -/
def uC1 : URLm := ⟨"https://example.com/", "example.com"⟩

/-- Two ranked markup candidates; the better one's fetch returns a non-ok
status, the worse one is perfectly valid. -/
def envC1 : Env :=
  { envFail with
    parseURL := fun s => if s = "https://example.com" then some uC1 else none
    pageFetch := fun s =>
      if s = "https://example.com/" then
        some ⟨true, some "text/html",
          [⟨"link", [("rel", "icon"), ("href", "/a.png"), ("sizes", "64x64")]⟩,
           ⟨"link", [("rel", "icon"), ("href", "/b.png"), ("sizes", "32x32")]⟩]⟩
      else none
    resolveStr := fun h _ => some ("https://example.com" ++ h)
    fetchResult := fun s =>
      if s = "https://example.com/a.png" then some ⟨false, 500, none, none, "", []⟩
      else if s = "https://example.com/b.png" then
        some ⟨true, 200, some "image/png", none, "", [7]⟩
      else none
    pngDecode := fun b => if b = [7] then some ⟨[1], 1, 1⟩ else none
    resize := fun img w h => some ⟨img.data, w, h⟩
    pngEncode := fun img => some img.data }

/-- All discovery fails; the Google fallback URL answers with an SVG body
that has no width/height attributes. -/
def envC4 : Env :=
  { envFail with
    parseURL := fun s => if s = "https://example.com" then some uC1 else none
    fetchResult := fun s =>
      if s = googleFallback uC1 then
        some ⟨true, 200, some "image/svg+xml", none, "<svg/>", strBytes "<svg/>"⟩
      else none }

/-- A fetched-SVG response carrying explicit width and height. -/
def envC4W : Env :=
  { envFail with
    fetchResult := fun _ =>
      some ⟨true, 200, some "image/svg+xml", none, "<svg width=\"5\" height=\"6\"/>", []⟩ }

/-- HTTPS markup discovery yields one candidate, and both third-party
probes succeed. -/
def envC5 : Env :=
  { envFail with
    getFavicons := fun s =>
      if s = "https://example.com" then [⟨"https://example.com/a.png", "32x32"⟩] else []
    probe := fun _ => some ⟨true, 200, some "image/x-icon"⟩ }

/-- URL resolution modelled as concatenation against the base. -/
def envC6 : Env := { envFail with resolveStr := fun h b => some (b ++ h) }

/-- Two manifest links in document order. -/
def elemsC6 : List Element :=
  [⟨"link", [("rel", "manifest"), ("href", "/m1.json")]⟩,
   ⟨"link", [("rel", "manifest"), ("href", "/m2.json")]⟩]

/-- An ICO response whose container decodes to three embedded images. -/
def envC7 : Env :=
  { envFail with
    fetchResult := fun _ => some ⟨true, 200, some "image/x-icon", none, "", [3]⟩
    icoDecode := fun b =>
      if b = [3] then some [⟨[1], 16, 16⟩, ⟨[2], 48, 48⟩, ⟨[3], 32, 32⟩] else none
    resize := fun img w h => some ⟨img.data, w, h⟩
    pngEncode := fun img => some img.data }

/-- Everything network-facing fails, but the target itself parses. -/
def envC8 : Env :=
  { envFail with
    parseURL := fun s => if s = "https://example.com" then some uC1 else none }

deriving instance DecidableEq for Except

/-! # Theorems -/

/-! ## String helper lemmas -/

theorem isPrefixOfL_append {p a : List Char} (b : List Char) (h : isPrefixOfL p a = true) :
    isPrefixOfL p (a ++ b) = true := by
  induction p generalizing a with
  | nil => rfl
  | cons x xs ih =>
    cases a with
    | nil => simp [isPrefixOfL] at h
    | cons y ys =>
      simp only [isPrefixOfL, Bool.and_eq_true] at h
      simp only [List.cons_append, isPrefixOfL, Bool.and_eq_true]
      exact ⟨h.1, ih h.2⟩

theorem jsStartsWith_append {s t p : String} (h : jsStartsWith s p = true) :
    jsStartsWith (s ++ t) p = true := by
  unfold jsStartsWith at h ⊢
  rw [String.data_append]
  exact isPrefixOfL_append _ h

theorem splitOnChar_not_mem {sep : Char} : ∀ {l : List Char}, sep ∉ l →
    splitOnChar sep l = [l] := by
  intro l
  induction l with
  | nil => intro _; rfl
  | cons c cs ih =>
    intro h
    have hc : ¬(c = sep) := fun e => h (e ▸ List.mem_cons_self c cs)
    have hcs : sep ∉ cs := fun hm => h (List.mem_cons_of_mem _ hm)
    simp only [splitOnChar, if_neg hc]
    rw [ih hcs]

theorem splitOnChar_append_sep {sep : Char} : ∀ {l1 l2 : List Char}, sep ∉ l1 → sep ∉ l2 →
    splitOnChar sep (l1 ++ sep :: l2) = [l1, l2] := by
  intro l1
  induction l1 with
  | nil =>
    intro l2 _ h2
    show splitOnChar sep (sep :: l2) = [[], l2]
    simp [splitOnChar, splitOnChar_not_mem h2]
  | cons c cs ih =>
    intro l2 h1 h2
    have hc : ¬(c = sep) := fun e => h1 (e ▸ List.mem_cons_self c cs)
    have hcs : sep ∉ cs := fun hm => h1 (List.mem_cons_of_mem _ hm)
    show splitOnChar sep (c :: (cs ++ sep :: l2)) = [c :: cs, l2]
    simp only [splitOnChar, if_neg hc]
    rw [ih hcs h2]

/-! ## Base64 lemmas -/

theorem b64tbl_length : b64tbl.length = 64 := by decide

theorem b64index_b64char : ∀ n, n < 64 → b64index (b64char n) = some n := by decide

theorem b64char_ne_eqsign (n : Nat) : b64char n ≠ '=' := by
  by_cases h : n < 64
  · exact (by decide : ∀ m, m < 64 → b64char m ≠ '=') n h
  · unfold b64char
    rw [List.getD_eq_default _ _ (by rw [b64tbl_length]; omega)]
    decide

theorem b64char_ne_comma (n : Nat) : b64char n ≠ ',' := by
  by_cases h : n < 64
  · exact (by decide : ∀ m, m < 64 → b64char m ≠ ',') n h
  · unfold b64char
    rw [List.getD_eq_default _ _ (by rw [b64tbl_length]; omega)]
    decide

theorem b64encode_shape (x : Nat) (xs : List Nat) :
    ∃ d0 d1 d2 d3 t, b64encodeBytes (x :: xs) = d0 :: d1 :: d2 :: d3 :: t := by
  match xs with
  | [] => exact ⟨_, _, _, _, _, rfl⟩
  | [y] => exact ⟨_, _, _, _, _, rfl⟩
  | y :: z :: w => exact ⟨_, _, _, _, _, rfl⟩

theorem b64_nocomma_aux : ∀ n (l : List Nat), l.length ≤ n → ',' ∉ b64encodeBytes l := by
  intro n
  induction n with
  | zero =>
    intro l hl
    have : l = [] := List.length_eq_zero.mp (Nat.le_zero.mp hl)
    subst this
    simp [b64encodeBytes]
  | succ n ih =>
    intro l hl
    match l with
    | [] => simp [b64encodeBytes]
    | [a] =>
      intro hmem
      simp only [b64encodeBytes, List.mem_cons, List.not_mem_nil, or_false] at hmem
      rcases hmem with h | h | h | h
      · exact b64char_ne_comma _ h.symm
      · exact b64char_ne_comma _ h.symm
      · exact absurd h (by decide)
      · exact absurd h (by decide)
    | [a, b] =>
      intro hmem
      simp only [b64encodeBytes, List.mem_cons, List.not_mem_nil, or_false] at hmem
      rcases hmem with h | h | h | h
      · exact b64char_ne_comma _ h.symm
      · exact b64char_ne_comma _ h.symm
      · exact b64char_ne_comma _ h.symm
      · exact absurd h (by decide)
    | a :: b :: c :: rest =>
      intro hmem
      simp only [b64encodeBytes, List.mem_cons] at hmem
      rcases hmem with h | h | h | h | h
      · exact b64char_ne_comma _ h.symm
      · exact b64char_ne_comma _ h.symm
      · exact b64char_ne_comma _ h.symm
      · exact b64char_ne_comma _ h.symm
      · have hr : rest.length ≤ n := by simp at hl; omega
        exact ih rest hr h

theorem b64_nocomma (l : List Nat) : ',' ∉ b64encodeBytes l :=
  b64_nocomma_aux l.length l le_rfl

theorem b64_rt_aux : ∀ n (l : List Nat), l.length ≤ n → (∀ b ∈ l, b < 256) →
    b64decodeChars (b64encodeBytes l) = some l := by
  intro n
  induction n with
  | zero =>
    intro l hl _
    have : l = [] := List.length_eq_zero.mp (Nat.le_zero.mp hl)
    subst this
    rfl
  | succ n ih =>
    intro l hl hb
    match l with
    | [] => rfl
    | [a] =>
      have ha : a < 256 := hb a (by simp)
      show b64decodeChars [b64char (a / 4), b64char (a % 4 * 16), '=', '='] = some [a]
      simp only [b64decodeChars, if_pos rfl]
      unfold dec2
      rw [b64index_b64char _ (by omega), b64index_b64char _ (by omega)]
      show some [a / 4 * 4 + a % 4 * 16 / 16] = some [a]
      have e1 : a / 4 * 4 + a % 4 * 16 / 16 = a := by omega
      rw [e1]
    | [a, b] =>
      have ha : a < 256 := hb a (by simp)
      have hbb : b < 256 := hb b (by simp)
      show b64decodeChars
        [b64char (a / 4), b64char (a % 4 * 16 + b / 16), b64char (b % 16 * 4), '='] = some [a, b]
      simp only [b64decodeChars, if_pos rfl, if_neg (b64char_ne_eqsign (b % 16 * 4))]
      unfold dec3
      rw [b64index_b64char _ (by omega), b64index_b64char _ (by omega),
        b64index_b64char _ (by omega)]
      show some [a / 4 * 4 + (a % 4 * 16 + b / 16) / 16,
        (a % 4 * 16 + b / 16) % 16 * 16 + b % 16 * 4 / 4] = some [a, b]
      have e1 : a / 4 * 4 + (a % 4 * 16 + b / 16) / 16 = a := by omega
      have e2 : (a % 4 * 16 + b / 16) % 16 * 16 + b % 16 * 4 / 4 = b := by omega
      rw [e1, e2]
    | a :: b :: c :: rest =>
      have ha : a < 256 := hb a (by simp)
      have hbb : b < 256 := hb b (by simp)
      have hc : c < 256 := hb c (by simp)
      cases rest with
      | nil =>
        show b64decodeChars
          [b64char (a / 4), b64char (a % 4 * 16 + b / 16),
           b64char (b % 16 * 4 + c / 64), b64char (c % 64)] = some [a, b, c]
        simp only [b64decodeChars, if_neg (b64char_ne_eqsign (c % 64))]
        unfold dec4
        rw [b64index_b64char _ (by omega), b64index_b64char _ (by omega),
          b64index_b64char _ (by omega), b64index_b64char _ (by omega)]
        show some [a / 4 * 4 + (a % 4 * 16 + b / 16) / 16,
          (a % 4 * 16 + b / 16) % 16 * 16 + (b % 16 * 4 + c / 64) / 4,
          (b % 16 * 4 + c / 64) % 4 * 64 + c % 64] = some [a, b, c]
        have e1 : a / 4 * 4 + (a % 4 * 16 + b / 16) / 16 = a := by omega
        have e2 : (a % 4 * 16 + b / 16) % 16 * 16 + (b % 16 * 4 + c / 64) / 4 = b := by omega
        have e3 : (b % 16 * 4 + c / 64) % 4 * 64 + c % 64 = c := by omega
        rw [e1, e2, e3]
      | cons r rs =>
        obtain ⟨d0, d1, d2, d3, t, he⟩ := b64encode_shape r rs
        show b64decodeChars
          (b64char (a / 4) :: b64char (a % 4 * 16 + b / 16) ::
            b64char (b % 16 * 4 + c / 64) :: b64char (c % 64) ::
            b64encodeBytes (r :: rs)) = some (a :: b :: c :: r :: rs)
        rw [he]
        simp only [b64decodeChars]
        rw [← he]
        rw [ih (r :: rs) (by simp at hl ⊢; omega) (fun x hx => hb x (by simp [hx]))]
        unfold dec4
        rw [b64index_b64char _ (by omega), b64index_b64char _ (by omega),
          b64index_b64char _ (by omega), b64index_b64char _ (by omega)]
        show some ([a / 4 * 4 + (a % 4 * 16 + b / 16) / 16,
          (a % 4 * 16 + b / 16) % 16 * 16 + (b % 16 * 4 + c / 64) / 4,
          (b % 16 * 4 + c / 64) % 4 * 64 + c % 64] ++ r :: rs) = some (a :: b :: c :: r :: rs)
        have e1 : a / 4 * 4 + (a % 4 * 16 + b / 16) / 16 = a := by omega
        have e2 : (a % 4 * 16 + b / 16) % 16 * 16 + (b % 16 * 4 + c / 64) / 4 = b := by omega
        have e3 : (b % 16 * 4 + c / 64) % 4 * 64 + c % 64 = c := by omega
        rw [e1, e2, e3]
        rfl

theorem b64_roundtrip (l : List Nat) (h : ∀ b ∈ l, b < 256) :
    b64decodeChars (b64encodeBytes l) = some l :=
  b64_rt_aux l.length l le_rfl h

theorem atob_btoa (s : String) (h : s.data.all (fun c => decide (c.toNat < 256)) = true) :
    btoa s = some ⟨b64encodeBytes (s.data.map Char.toNat)⟩ ∧
    atob (⟨b64encodeBytes (s.data.map Char.toNat)⟩ : String) = some s := by
  constructor
  · unfold btoa
    rw [if_pos h]
  · unfold atob
    have hb : ∀ x ∈ s.data.map Char.toNat, x < 256 := by
      intro x hx
      obtain ⟨c, hc, rfl⟩ := List.mem_map.mp hx
      exact of_decide_eq_true (List.all_eq_true.mp h c hc)
    show (b64decodeChars (b64encodeBytes (s.data.map Char.toNat))).map _ = some s
    rw [b64_roundtrip _ hb]
    simp only [Option.map_some']
    congr 1
    apply String.ext
    show (s.data.map Char.toNat).map Char.ofNat = s.data
    rw [List.map_map]
    exact (List.map_congr_left fun c _ => Char.ofNat_toNat c).trans (List.map_id _)

/-! ## Sorting lemmas -/

theorem mem_insertByDesc {α} {key : α → Int} {x c : α} :
    ∀ {l : List α}, x ∈ insertByDesc key c l ↔ x = c ∨ x ∈ l := by
  intro l
  induction l with
  | nil => simp [insertByDesc]
  | cons d ds ih =>
    simp only [insertByDesc]
    split
    · simp only [List.mem_cons]
    · simp only [List.mem_cons, ih]
      tauto

theorem mem_sortByDesc_aux {α} {key : α → Int} :
    ∀ (l acc : List α) (x : α),
      (x ∈ l.foldl (fun a c => insertByDesc key c a) acc ↔ x ∈ acc ∨ x ∈ l) := by
  intro l
  induction l with
  | nil => simp
  | cons c cs ih =>
    intro acc x
    simp only [List.foldl_cons, ih, mem_insertByDesc, List.mem_cons]
    tauto

theorem mem_sortByDesc {α} {key : α → Int} {l : List α} {x : α} :
    x ∈ sortByDesc key l ↔ x ∈ l := by
  unfold sortByDesc
  rw [mem_sortByDesc_aux]
  simp

theorem length_insertByDesc {α} {key : α → Int} (c : α) :
    ∀ l : List α, (insertByDesc key c l).length = l.length + 1 := by
  intro l
  induction l with
  | nil => rfl
  | cons d ds ih =>
    simp only [insertByDesc]
    split
    · rfl
    · simp [ih]

theorem length_sortByDesc_aux {α} {key : α → Int} :
    ∀ (l acc : List α),
      (l.foldl (fun a c => insertByDesc key c a) acc).length = acc.length + l.length := by
  intro l
  induction l with
  | nil => simp
  | cons c cs ih =>
    intro acc
    simp only [List.foldl_cons, ih, length_insertByDesc, List.length_cons]
    omega

theorem sortByDesc_ne_nil {α} {key : α → Int} {l : List α} (h : l ≠ []) :
    sortByDesc key l ≠ [] := by
  intro he
  have := @length_sortByDesc_aux _ key l []
  rw [show sortByDesc key l = l.foldl (fun a c => insertByDesc key c a) [] from rfl] at he
  rw [he] at this
  simp at this
  exact h (List.length_eq_zero.mp this.symm)

theorem headD_mem {α} {l : List α} (h : l ≠ []) (d : α) : l.headD d ∈ l := by
  cases l with
  | nil => exact absurd rfl h
  | cons x xs => simp

/-! ## Score-bound lemmas -/

theorem relScore_bounds (rel : Option String) : 0 ≤ relScore rel ∧ relScore rel ≤ 650 := by
  unfold relScore
  split_ifs <;> omega

theorem sizeScore_of_width {sz : String} {w h2 : Nat}
    (hm : matchWxH sz.data = some (w, h2)) : sizeScore (some sz) = (w : Int) := by
  have hne : sz ≠ "" := by
    intro he
    rw [he, show ("" : String).data = [] from rfl,
      show matchWxH [] = none from rfl] at hm
    cases hm
  have hna : sz ≠ "any" := by
    intro he
    rw [he, show matchWxH ("any" : String).data = none from by decide] at hm
    cases hm
  show (if sz = "" then 0
    else if sz = "any" then 500
    else
      match matchWxH sz.data with
      | some (w, _) => (w : Int)
      | none => 0) = (w : Int)
  rw [if_neg hne, if_neg hna, hm]

theorem fmtScoreF_nonvector {href : String} (h : jsEndsWith href ".svg" = false) :
    fmtScoreF href ≤ 500 := by
  unfold fmtScoreF
  split_ifs with h1 h2 h3 h4
  any_goals omega
  all_goals (rw [h] at h2; simp at h2)

theorem srcScoreF_bounds (href : String) : -20 ≤ srcScoreF href ∧ srcScoreF href ≤ 80 := by
  unfold srcScoreF
  split_ifs <;> omega

theorem sizeScoreF_of_width {i : Icon} {w : Int} (h : declaredWidthF i = some w) :
    sizeScoreF i.sizes = w := by
  unfold declaredWidthF at h
  unfold sizeScoreF
  by_cases hg : i.sizes ≠ "" ∧ i.sizes ≠ "unknown"
  · rw [if_pos hg] at h ⊢
    rw [h]
  · rw [if_neg hg] at h
    cases h

/-! ## Status invariance of the resolution loop -/

theorem processIcon_status {env : Env} {i : Icon} {r : ResponseM}
    (h : processIcon env i = some r) : r.status = 200 := by
  unfold processIcon at h
  split at h
  · split at h
    · exact absurd h (by simp)
    · split at h
      · exact absurd h (by simp)
      · cases h; rfl
  · split at h
    · exact absurd h (by simp)
    · split at h
      · exact absurd h (by simp)
      · split at h
        · exact absurd h (by simp)
        · split at h
          · exact absurd h (by simp)
          · split at h
            · cases h; rfl
            · split at h
              · exact absurd h (by simp)
              · split at h
                · exact absurd h (by simp)
                · split at h
                  · exact absurd h (by simp)
                  · cases h; rfl

theorem resolveLoop_status {env : Env} {r : ResponseM} :
    ∀ {l : List Icon}, resolveLoop env l = some r → r.status = 200 := by
  intro l
  induction l with
  | nil => intro h; exact absurd h (by simp [resolveLoop])
  | cons i rest ih =>
    intro h
    unfold resolveLoop at h
    split at h
    · cases h
      exact processIcon_status (by assumption)
    · exact ih h

/-! ## Collector lemmas -/

theorem pushCandidate_manifestUrl (env : Env) (base : String) (st : CollectState)
    (href rel sizes type : Option String) :
    (pushCandidate env base st href rel sizes type).manifestUrl = st.manifestUrl := by
  cases href with
  | none => rfl
  | some h =>
    show (if h = "" then st
      else
        match env.resolveStr h base with
        | none => st
        | some u =>
          { st with candidates := st.candidates ++
              [⟨u, rel, sizes, type, scoreCandidate ⟨h, rel, sizes, type⟩⟩] }).manifestUrl
      = st.manifestUrl
    by_cases hh : h = ""
    · rw [if_pos hh]
    · rw [if_neg hh]
      cases env.resolveStr h base <;> rfl

theorem collectStep_manifest_none {e : Element} (env : Env) (base : String) (st : CollectState)
    (hm : manifestHrefOf e = none) :
    ∃ st', collectStep env base st e = .ok st' ∧ st'.manifestUrl = st.manifestUrl := by
  unfold collectStep
  unfold manifestHrefOf at hm
  by_cases h1 : (e.tagName == "link") = true
  · rw [if_pos h1] at hm ⊢
    by_cases h2 : relIconLike (elemGet e "rel") = true
    · rw [if_pos h2]
      exact ⟨_, rfl, pushCandidate_manifestUrl _ _ _ _ _ _ _⟩
    · rw [if_neg h2] at hm
      rw [if_neg h2]
      by_cases h3 : (elemGet e "rel" == some "manifest") = true
      · rw [if_pos h3] at hm ⊢
        cases he : elemGet e "href" with
        | none => exact ⟨st, rfl, rfl⟩
        | some h =>
          replace hm : (if h = "" then none else some h) = (none : Option String) := by
            rw [he] at hm
            exact hm
          by_cases h4 : h = ""
          · refine ⟨st, ?_, rfl⟩
            show (if h = "" then Except.ok st
              else
                match env.resolveStr h base with
                | none => Except.error st
                | some u => Except.ok { st with manifestUrl := some u }) = Except.ok st
            rw [if_pos h4]
          · rw [if_neg h4] at hm
            cases hm
      · rw [if_neg h3] at hm ⊢
        exact ⟨st, rfl, rfl⟩
  · rw [if_neg h1]
    by_cases h5 : (e.tagName == "meta") = true
    · rw [if_pos h5]
      by_cases h6 : (elemGet e "property" == some "og:image") = true
      · rw [if_pos h6]
        exact ⟨_, rfl, pushCandidate_manifestUrl _ _ _ _ _ _ _⟩
      · rw [if_neg h6]
        exact ⟨st, rfl, rfl⟩
    · rw [if_neg h5]
      exact ⟨st, rfl, rfl⟩

theorem collectStep_manifest_some {e : Element} {h : String} (env : Env) (base : String)
    (st : CollectState) (hm : manifestHrefOf e = some h) :
    collectStep env base st e =
      match env.resolveStr h base with
      | none => .error st
      | some u => .ok { st with manifestUrl := some u } := by
  unfold collectStep
  unfold manifestHrefOf at hm
  by_cases h1 : (e.tagName == "link") = true
  · rw [if_pos h1] at hm ⊢
    by_cases h2 : relIconLike (elemGet e "rel") = true
    · rw [if_pos h2] at hm
      exact absurd hm (by simp)
    · rw [if_neg h2] at hm ⊢
      by_cases h3 : (elemGet e "rel" == some "manifest") = true
      · rw [if_pos h3] at hm ⊢
        cases he : elemGet e "href" with
        | none =>
          rw [he] at hm
          cases hm
        | some h0 =>
          replace hm : (if h0 = "" then none else some h0) = some h := by
            rw [he] at hm
            exact hm
          by_cases h4 : h0 = ""
          · rw [if_pos h4] at hm
            cases hm
          · rw [if_neg h4] at hm
            cases hm
            show (if h = "" then Except.ok st
              else
                match env.resolveStr h base with
                | none => Except.error st
                | some u => Except.ok { st with manifestUrl := some u }) =
              match env.resolveStr h base with
              | none => Except.error st
              | some u => Except.ok { st with manifestUrl := some u }
            rw [if_neg h4]
      · rw [if_neg h3] at hm
        exact absurd hm (by simp)
  · rw [if_neg h1] at hm
    exact absurd hm (by simp)

theorem runCollect_manifestUrl (env : Env) (base : String) :
    ∀ (elems : List Element) (st : CollectState),
      (∀ e ∈ elems, ∀ h, manifestHrefOf e = some h → (env.resolveStr h base).isSome = true) →
      (runCollect env base st elems).manifestUrl =
        match (elems.filterMap manifestHrefOf).getLast? with
        | none => st.manifestUrl
        | some h => env.resolveStr h base := by
  intro elems
  induction elems with
  | nil =>
    intro st _
    rfl
  | cons e es ih =>
    intro st hok
    cases hm : manifestHrefOf e with
    | none =>
      obtain ⟨st', hstep, hpres⟩ := collectStep_manifest_none env base st hm
      rw [runCollect, hstep, ih st' (fun x hx => hok x (List.mem_cons_of_mem _ hx)),
        List.filterMap_cons, hm]
      cases (es.filterMap manifestHrefOf).getLast? with
      | none => simp [hpres]
      | some h => rfl
    | some h =>
      have hres := hok e (List.mem_cons_self _ _) h hm
      obtain ⟨u, hu⟩ := Option.isSome_iff_exists.mp hres
      rw [runCollect, collectStep_manifest_some env base st hm, hu]
      show (runCollect env base { st with manifestUrl := some u } es).manifestUrl = _
      rw [ih _ (fun x hx => hok x (List.mem_cons_of_mem _ hx)), List.filterMap_cons, hm]
      cases hfes : es.filterMap manifestHrefOf with
      | nil => simp [hu]
      | cons f fs =>
        rw [List.getLast?_cons_cons]
        cases hg : (f :: fs).getLast? with
        | none => exact absurd hg (by simp)
        | some y => rfl

/-! ## `fetchIconList` helper -/

theorem fetchIconList_ne_nil {env : Env} {d : String} {l : List Icon}
    (h : fetchIconList env d = .ok l) : l ≠ [] := by
  unfold fetchIconList at h
  by_cases hc : (preIcons env d).isEmpty = true
  · rw [if_pos hc] at h
    cases hb : btoa (svgContent d) with
    | none =>
      rw [hb] at h
      cases h
    | some b =>
      rw [hb] at h
      cases h
      simp
  · rw [if_neg hc] at h
    cases h
    intro he
    rw [he] at hc
    exact hc rfl

theorem ne_noicons_msg (d : String) :
    ("Could not find or process a valid icon for " ++ d ++ ".") ≠ "No icons found from API." := by
  intro h
  have h2 := congrArg (fun s : String => s.data.head?) h
  simp only [String.data_append] at h2
  simp only [List.cons_append, List.head?_cons] at h2
  exact absurd h2 (by decide)

theorem listIsEmpty_iff {α} {l : List α} : l.isEmpty = true ↔ l = [] := by
  cases l <;> simp

/-! ## Claim C3 -/

/-- C3: for every candidate whose relation attribute is exactly
`og:image` (the social-preview role that `IconCollector.element` assigns
to `meta property="og:image"` tags), the primary scorer `scoreCandidate`
returns exactly 50 regardless of href, declared size or declared type:
the fixed-score override is applied last and clobbers all previously
accumulated additive terms. -/
theorem og_image_flat_fifty_c3 (href : String) (sizes type : Option String) :
    scoreCandidate ⟨href, some "og:image", sizes, type⟩ = 50 := by
  simp [scoreCandidate]

/-! ## Claim C2 -/

/-- C2 counterexample: as stated ("for every pair where one candidate is
vector-format and the other is not, with the non-vector declared width ≤
the vector's, both ≤ 999999, the scorer ranks the vector strictly
higher") the claim is false on `scoreCandidate`: a vector candidate
carrying the social-preview role is clobbered to the flat score 50 and
scores strictly BELOW a plain non-vector icon candidate of equal declared
width 32. -/
theorem vector_dominance_c2_counterexample :
    isVectorCand ⟨"/a.svg", some "og:image", some "32x32", none⟩ = true ∧
    isVectorCand ⟨"/b.png", some "icon", some "32x32", none⟩ = false ∧
    declaredWidth ⟨"/a.svg", some "og:image", some "32x32", none⟩ = some 32 ∧
    declaredWidth ⟨"/b.png", some "icon", some "32x32", none⟩ = some 32 ∧
    scoreCandidate ⟨"/a.svg", some "og:image", some "32x32", none⟩ = 50 ∧
    scoreCandidate ⟨"/b.png", some "icon", some "32x32", none⟩ = 132 ∧
    ¬(scoreCandidate ⟨"/b.png", some "icon", some "32x32", none⟩ <
      scoreCandidate ⟨"/a.svg", some "og:image", some "32x32", none⟩) := by
  decide

/-- C2 amended: vector candidates strictly outscore non-vector candidates
of equal-or-lower declared width, provided the candidate is not subject
to a fixed-score or penalty override — in `scoreCandidate` the vector
candidate must not carry the social-preview role (whose override fixes
the score at 50), and in `calculateScore` the vector candidate's href
must not be a data URI (which is penalized −1000 before the `.svg` test
is reached). -/
theorem vector_dominance_c2_amended :
    (∀ (v n : LinkCand) (wv wn : Nat),
      isVectorCand v = true → isVectorCand n = false →
      v.rel ≠ some "og:image" →
      declaredWidth v = some wv → declaredWidth n = some wn →
      wn ≤ wv → wv ≤ 999999 →
      scoreCandidate n < scoreCandidate v) ∧
    (∀ (v n : Icon) (wv wn : Int),
      isVectorIcon v = true → isVectorIcon n = false →
      jsStartsWith (lowerStr v.href) "data:" = false →
      declaredWidthF v = some wv → declaredWidthF n = some wn →
      wn ≤ wv → wv ≤ 999999 →
      calculateScore n < calculateScore v) := by
  constructor
  · intro v n wv wn hv hn hog hwv hwn hle _
    obtain ⟨szv, hszv, hmv⟩ : ∃ sz, v.sizes = some sz ∧ ∃ h2, matchWxH sz.data = some (wv, h2) := by
      unfold declaredWidth at hwv
      cases hsz : v.sizes with
      | none => rw [hsz] at hwv; cases hwv
      | some sz =>
        rw [hsz] at hwv
        simp only [Option.some_bind, Option.map_eq_some'] at hwv
        obtain ⟨⟨w1, h2⟩, hp, hw1⟩ := hwv
        simp only at hw1
        exact ⟨sz, rfl, h2, by rw [hp, hw1]⟩
    obtain ⟨szn, hszn, hmn⟩ : ∃ sz, n.sizes = some sz ∧ ∃ h2, matchWxH sz.data = some (wn, h2) := by
      unfold declaredWidth at hwn
      cases hsz : n.sizes with
      | none => rw [hsz] at hwn; cases hwn
      | some sz =>
        rw [hsz] at hwn
        simp only [Option.some_bind, Option.map_eq_some'] at hwn
        obtain ⟨⟨w1, h2⟩, hp, hw1⟩ := hwn
        simp only at hw1
        exact ⟨sz, rfl, h2, by rw [hp, hw1]⟩
    obtain ⟨h2v, hmv⟩ := hmv
    obtain ⟨h2n, hmn⟩ := hmn
    have hveq : scoreCandidate v =
        (if isVectorCand v then 1000 else 0) + relScore v.rel + sizeScore v.sizes := by
      show (if v.rel == some "og:image" then (50 : Int)
        else (if isVectorCand v then 1000 else 0) + relScore v.rel + sizeScore v.sizes) = _
      rw [if_neg (by simp [hog])]
    have hneq : scoreCandidate n = (if n.rel == some "og:image" then (50 : Int)
        else (if isVectorCand n then 1000 else 0) + relScore n.rel + sizeScore n.sizes) := rfl
    rw [hveq, if_pos hv, hszv, sizeScore_of_width hmv]
    rw [hneq]
    have hbv := relScore_bounds v.rel
    have hbn := relScore_bounds n.rel
    by_cases hogn : (n.rel == some "og:image") = true
    · rw [if_pos hogn]
      omega
    · rw [if_neg hogn, if_neg (by simp [hn]), hszn, sizeScore_of_width hmn]
      omega
  · intro v n wv wn hv hn hd hwv hwn hle _
    unfold isVectorIcon at hv hn
    have hveq : calculateScore v =
        fmtScoreF (lowerStr v.href) + sizeScoreF v.sizes + srcScoreF (lowerStr v.href) := rfl
    have hneq : calculateScore n =
        fmtScoreF (lowerStr n.href) + sizeScoreF n.sizes + srcScoreF (lowerStr n.href) := rfl
    have hfv : fmtScoreF (lowerStr v.href) = 1000 := by
      unfold fmtScoreF
      rw [hd, hv]
      simp
    have hfn : fmtScoreF (lowerStr n.href) ≤ 500 := fmtScoreF_nonvector hn
    have hsv := srcScoreF_bounds (lowerStr v.href)
    have hsn := srcScoreF_bounds (lowerStr n.href)
    rw [hveq, hneq, hfv, sizeScoreF_of_width hwv, sizeScoreF_of_width hwn]
    omega

/-- C2 witness: the amended dominance law at concrete candidates for both
rule sets. -/
theorem vector_dominance_c2_witness :
    scoreCandidate ⟨"/n.png", some "apple-touch-icon", some "64x64", none⟩ <
      scoreCandidate ⟨"/v.svg", some "icon", some "64x64", none⟩ ∧
    calculateScore ⟨"https://e/b.png", "64x64"⟩ < calculateScore ⟨"https://e/a.svg", "128x128"⟩ := by
  refine ⟨vector_dominance_c2_amended.1 ⟨"/v.svg", some "icon", some "64x64", none⟩
      ⟨"/n.png", some "apple-touch-icon", some "64x64", none⟩ 64 64 (by decide) (by decide)
      (by decide) (by decide) (by decide) (by decide) (by decide),
    vector_dominance_c2_amended.2 ⟨"https://e/a.svg", "128x128"⟩ ⟨"https://e/b.png", "64x64"⟩
      128 64 (by decide) (by decide) (by decide) (by decide) (by decide) (by decide) (by decide)⟩

/-! ## Claim C7 -/

theorem bestIco_spec : ∀ (t : List IcoImg) (h : IcoImg),
    bestIco h t ∈ h :: t ∧ ∀ x ∈ h :: t, x.width ≤ (bestIco h t).width := by
  intro t
  induction t with
  | nil =>
    intro h
    refine ⟨by simp [bestIco], ?_⟩
    intro x hx
    simp only [List.mem_cons, List.not_mem_nil, or_false] at hx
    simp [bestIco, hx]
  | cons b bs ih =>
    intro h
    have hstep : bestIco h (b :: bs) = bestIco (if h.width > b.width then h else b) bs := rfl
    obtain ⟨hmem, hbound⟩ := ih (if h.width > b.width then h else b)
    have hx_mem : (if h.width > b.width then h else b) ∈ h :: b :: bs := by
      split <;> simp
    have hhle : h.width ≤ (if h.width > b.width then h else b).width := by
      split <;> omega
    have hble : b.width ≤ (if h.width > b.width then h else b).width := by
      split <;> omega
    constructor
    · rw [hstep]
      rcases List.mem_cons.mp hmem with he | hin
      · rw [he]; exact hx_mem
      · exact List.mem_cons_of_mem _ (List.mem_cons_of_mem _ hin)
    · intro x hx
      rw [hstep]
      have hself := hbound _ (List.mem_cons_self _ _)
      rcases List.mem_cons.mp hx with he | hx2
      · rw [he]; omega
      · rcases List.mem_cons.mp hx2 with he2 | hin2
        · rw [he2]; omega
        · exact hbound x (List.mem_cons_of_mem _ hin2)

/-- C7: on a non-empty decoded ICO container, `bestIco` (the shallow
embedding of `decodedIcos.reduce((a, b) => a.width > b.width ? a : b)`)
returns an element of the container of maximal width, and the resolution
loop uses exactly that image as its single decode source, feeding it to
resize and PNG encoding and ignoring the other embedded images. -/
theorem ico_largest_width_c7 :
    (∀ (h : IcoImg) (t : List IcoImg),
      bestIco h t ∈ h :: t ∧ ∀ x ∈ h :: t, x.width ≤ (bestIco h t).width) ∧
    (∀ (env : Env) (i : Icon) (fr : FResp) (h : IcoImg) (t : List IcoImg),
      jsStartsWith i.href "data:image/svg+xml" = false →
      env.fetchResult i.href = some fr →
      fr.ok = true →
      jsStartsWith (ctOf fr) "image/" = true →
      validLen fr.contentLength = true →
      jsIncludes (ctOf fr) "svg" = false →
      jsIncludes (ctOf fr) "png" = false →
      jsIncludes (ctOf fr) "jpeg" = false →
      jsIncludes (ctOf fr) "webp" = false →
      (jsIncludes (ctOf fr) "ico" || jsIncludes (ctOf fr) "x-icon") = true →
      env.icoDecode fr.bytes = some (h :: t) →
      processIcon env i =
        match env.resize (icoRaster (bestIco h t)) 40 40 with
        | none => none
        | some rimg =>
          match env.pngEncode rimg with
          | none => none
          | some out => some ⟨200, some "image/png", .bin out⟩) := by
  constructor
  · intro h t
    exact bestIco_spec t h
  · intro env i fr h t hdu hf hok hct hlen hsvg hpng hjpeg hwebp hico hdec
    unfold processIcon decodeDispatch
    rw [hdu, hf]
    simp only [Bool.false_eq_true, if_false, hok, Bool.not_true, hct, hlen, hsvg, hpng, hjpeg,
      hwebp, hico, if_true, hdec]

/-- C7 witness: an ICO container with embedded widths 16, 48, 32; the
48-wide image is chosen and its pixel data flows to the output. -/
theorem ico_largest_width_c7_witness :
    (bestIco ⟨[1], 16, 16⟩ [⟨[2], 48, 48⟩, ⟨[3], 32, 32⟩]).width = 48 ∧
    (⟨[3], 32, 32⟩ : IcoImg).width ≤ (bestIco ⟨[1], 16, 16⟩ [⟨[2], 48, 48⟩, ⟨[3], 32, 32⟩]).width ∧
    processIcon envC7 ⟨"https://x/f.ico", "unknown"⟩ = some ⟨200, some "image/png", .bin [2]⟩ := by
  refine ⟨by decide, (ico_largest_width_c7.1 ⟨[1], 16, 16⟩ [⟨[2], 48, 48⟩, ⟨[3], 32, 32⟩]).2
      ⟨[3], 32, 32⟩ (by decide), ?_⟩
  have hd := ico_largest_width_c7.2 envC7 ⟨"https://x/f.ico", "unknown"⟩
    ⟨true, 200, some "image/x-icon", none, "", [3]⟩ ⟨[1], 16, 16⟩ [⟨[2], 48, 48⟩, ⟨[3], 32, 32⟩]
    (by decide) (by decide) (by decide) (by decide) (by decide) (by decide) (by decide)
    (by decide) (by decide) (by decide) (by decide)
  rw [hd]
  decide

/-! ## Claim C6 -/

/-- C6 counterexample: the claim "the FIRST manifest link encountered
wins" is false: `IconCollector.element` assigns
`manifestUrl = new URL(...)` unconditionally, so a scan over two manifest
links retains the resolution of the SECOND (last) one, which differs from
the first's resolution. -/
theorem manifest_first_wins_c6_counterexample :
    (runCollect envC6 "https://ex.com" ⟨[], none⟩ elemsC6).manifestUrl =
      some "https://ex.com/m2.json" ∧
    envC6.resolveStr "/m1.json" "https://ex.com" = some "https://ex.com/m1.json" ∧
    ("https://ex.com/m2.json" : String) ≠ "https://ex.com/m1.json" := by
  refine ⟨by decide, by decide, by decide⟩

/-- C6 amended: during a markup scan at most one manifest URL is retained
(the collector holds a single mutable slot), and — provided every
manifest href resolves, so no uncaught throw aborts the scan — the
retained URL is the resolution of the LAST manifest link encountered in
document order, against the page base URL; with no manifest link the slot
keeps its initial value. -/
theorem manifest_last_wins_c6_amended (env : Env) (base : String) (elems : List Element)
    (st : CollectState)
    (hok : ∀ e ∈ elems, ∀ h, manifestHrefOf e = some h → (env.resolveStr h base).isSome = true) :
    (runCollect env base st elems).manifestUrl =
      match (elems.filterMap manifestHrefOf).getLast? with
      | none => st.manifestUrl
      | some h => env.resolveStr h base :=
  runCollect_manifestUrl env base elems st hok

/-- C6 witness: the amended last-wins law evaluated on the two-manifest
scan. -/
theorem manifest_last_wins_c6_witness :
    (runCollect envC6 "https://ex.com" ⟨[], none⟩ elemsC6).manifestUrl =
      some "https://ex.com/m2.json" := by
  have h := manifest_last_wins_c6_amended envC6 "https://ex.com" elemsC6 ⟨[], none⟩
    (by decide)
  rw [h]
  decide

/-! ## Claim C5 -/

/-- C5 counterexample: the claim "no third-party lookup URL enters the
candidate set when markup discovery produced a candidate" is false for
`fetchIconList`: its third-party probe loop is not guarded by an
emptiness check (unlike the HTTP retry), so with one HTTPS markup icon
present and both probes succeeding, the DuckDuckGo and Google URLs are
still appended to the candidate list. -/
theorem fallback_scope_c5_counterexample :
    envC5.getFavicons "https://example.com" ≠ [] ∧
    fetchIconList envC5 "example.com" =
      .ok [⟨"https://example.com/a.png", "32x32"⟩,
        ⟨"https://icons.duckduckgo.com/ip3/example.com.ico", "unknown"⟩,
        ⟨"https://www.google.com/s2/favicons?domain=example.com&sz=128", "unknown"⟩] := by
  refine ⟨by decide, by decide⟩

/-- C5 amended: in `findBestIcon` (variant 1) the fallback chain
(`/favicon.ico` HEAD, Google lookup) is reached only when discovery
yielded no candidate: whenever the discovered candidate list is
non-empty, the returned winner is the URL of one of the discovered
candidates.  In `fetchIconList`, by contrast, the third-party sources are
probed unconditionally: whenever HTTPS markup discovery yields icons, the
result is exactly those icons followed by every third-party URL whose
probe succeeded. -/
theorem fallback_scope_c5_amended :
    (∀ (env : Env) (tu : URLm),
      (discover env tu).candidates ≠ [] →
      findBestIcon env tu ∈ ((discover env tu).candidates).map IconCandidate.url) ∧
    (∀ (env : Env) (d : String),
      env.getFavicons ("https://" ++ d) ≠ [] →
      fetchIconList env d = .ok (env.getFavicons ("https://" ++ d) ++
        ((thirdPartySources d).filter (probeOk env)).map fun s => ⟨s, "unknown"⟩)) := by
  constructor
  · intro env tu hne
    unfold findBestIcon
    rw [if_neg (fun hc => hne (listIsEmpty_iff.mp hc))]
    have hmemS := headD_mem (@sortByDesc_ne_nil _ (fun c => c.score) _ hne)
      ⟨"", none, none, none, 0⟩
    have hmem : ((sortByDesc (fun c => c.score) (discover env tu).candidates).headD
        ⟨"", none, none, none, 0⟩) ∈ (discover env tu).candidates := mem_sortByDesc.mp hmemS
    exact List.mem_map_of_mem _ hmem
  · intro env d hne
    have hm : markupIcons env d = env.getFavicons ("https://" ++ d) := by
      unfold markupIcons
      rw [if_neg (fun hc => hne (listIsEmpty_iff.mp hc))]
    have hpre : preIcons env d = env.getFavicons ("https://" ++ d) ++
        ((thirdPartySources d).filter (probeOk env)).map fun s => ⟨s, "unknown"⟩ := by
      unfold preIcons
      rw [hm]
    unfold fetchIconList
    rw [if_neg fun hc => ?_, hpre]
    rw [hpre] at hc
    rcases hne (List.append_eq_nil.mp (listIsEmpty_iff.mp hc)).1 with ⟨⟩

/-- C5 witness: both halves of the amended law at concrete environments:
the variant-1 winner comes from the discovered candidates, and the
`fetchIconList` candidate set keeps both third-party URLs alongside the
markup icon. -/
theorem fallback_scope_c5_witness :
    findBestIcon envC1 uC1 ∈ ((discover envC1 uC1).candidates).map IconCandidate.url ∧
    fetchIconList envC5 "example.com" =
      .ok ([⟨"https://example.com/a.png", "32x32"⟩] ++
        ((thirdPartySources "example.com").filter (probeOk envC5)).map fun s => ⟨s, "unknown"⟩) := by
  exact ⟨fallback_scope_c5_amended.1 envC1 uC1 (by decide),
    fallback_scope_c5_amended.2 envC5 "example.com" (by decide)⟩

/-! ## Claim C1 -/

/-- C1 counterexample: the claim "on any fetch error or non-success
status the resolver rejects that candidate and continues to the next
ranked candidate rather than aborting resolution" is false for variant 1
(`src/src/index.ts` lines 214-221): it fetches only the single top-ranked
URL and throws to the catch-all 404 on failure.  Here discovery yields
two candidates, the better one answers with a non-ok status while the
second would pass the loop's own validation, yet the handler returns 404
without ever trying the second candidate. -/
theorem resolution_loop_c1_counterexample :
    handlerV1 envC1 (some "example.com") = .ok (notFoundV1 uC1) ∧
    processIcon envC1 ⟨"https://example.com/b.png", "32x32"⟩ =
      some ⟨200, some "image/png", .bin [1]⟩ := by
  refine ⟨by rfl, by rfl⟩

/-- C1 amended: in the loop-based resolvers (`part_001` and index.ts
variant 2) the resolver accepts the first ranked candidate whose
iteration produces a response, and on a fetch error, non-ok status,
content type not starting with `image/`, or plausibility-failing declared
length it rejects the candidate and continues with the remaining ranked
list; in index.ts variant 1, however, only the single top-ranked URL is
fetched and a fetch throw or non-ok status aborts resolution to the
catch-all 404. -/
theorem resolution_loop_c1_amended (env : Env) (i : Icon) (rest : List Icon) :
    (∀ r, processIcon env i = some r → resolveLoop env (i :: rest) = some r) ∧
    (jsStartsWith i.href "data:image/svg+xml" = false →
      (env.fetchResult i.href = none ∨
        ∃ fr, env.fetchResult i.href = some fr ∧
          (fr.ok = false ∨ jsStartsWith (ctOf fr) "image/" = false ∨
            validLen fr.contentLength = false)) →
      processIcon env i = none ∧ resolveLoop env (i :: rest) = resolveLoop env rest) ∧
    (∀ (t : String) (u : URLm),
      env.parseURL (prefixScheme t) = some u →
      (env.fetchResult (findBestIcon env u) = none ∨
        ∃ fr, env.fetchResult (findBestIcon env u) = some fr ∧ fr.ok = false) →
      handlerV1 env (some t) = .ok (notFoundV1 u)) := by
  refine ⟨?_, ?_, ?_⟩
  · intro r h
    simp [resolveLoop, h]
  · intro hd hrej
    have hnone : processIcon env i = none := by
      rcases hrej with hfe | ⟨fr, hfr, hcase⟩
      · simp [processIcon, hd, hfe]
      · rcases hcase with hok | hct | hlen
        · simp [processIcon, hd, hfr, hok]
        · cases hok2 : fr.ok
          · simp [processIcon, hd, hfr, hok2]
          · simp [processIcon, hd, hfr, hok2, hct]
        · cases hok2 : fr.ok
          · simp [processIcon, hd, hfr, hok2]
          · cases hct2 : jsStartsWith (ctOf fr) "image/"
            · simp [processIcon, hd, hfr, hok2, hct2]
            · simp [processIcon, hd, hfr, hok2, hct2, hlen]
    exact ⟨hnone, by simp [resolveLoop, hnone]⟩
  · intro t u hp hcase
    rcases hcase with hfe | ⟨fr, hfr, hok⟩
    · simp [handlerV1, hp, hfe]
    · simp [handlerV1, hp, hfr, hok]

/-- C1 witness: the amended loop law at concrete inputs — acceptance of a
valid candidate, rejection-and-continuation past a non-ok candidate, and
variant 1's abort on the same non-ok top candidate. -/
theorem resolution_loop_c1_witness :
    resolveLoop envC1 [⟨"https://example.com/b.png", "32x32"⟩] =
      some ⟨200, some "image/png", .bin [1]⟩ ∧
    (processIcon envC1 ⟨"https://example.com/a.png", "64x64"⟩ = none ∧
      resolveLoop envC1 [⟨"https://example.com/a.png", "64x64"⟩,
        ⟨"https://example.com/b.png", "32x32"⟩] =
        resolveLoop envC1 [⟨"https://example.com/b.png", "32x32"⟩]) ∧
    handlerV1 envC1 (some "example.com") = .ok (notFoundV1 uC1) := by
  refine ⟨(resolution_loop_c1_amended envC1 ⟨"https://example.com/b.png", "32x32"⟩ []).1 _
      (by rfl),
    (resolution_loop_c1_amended envC1 ⟨"https://example.com/a.png", "64x64"⟩
      [⟨"https://example.com/b.png", "32x32"⟩]).2.1 (by decide)
      (Or.inr ⟨⟨false, 500, none, none, "", []⟩, by rfl, Or.inl rfl⟩),
    (resolution_loop_c1_amended envC1 ⟨"", ""⟩ []).2.2 "example.com" uC1 (by decide)
      (Or.inr ⟨⟨false, 500, none, none, "", []⟩, by rfl, rfl⟩)⟩

/-! ## Claim C4 -/

/-- C4 counterexample: the claim "for every accepted candidate whose
authoritative content type is SVG, the normalizer injects explicit width
and height attributes when absent" is false for variant 1: its dispatch
has no SVG branch, so an accepted `image/svg+xml` response falls into the
unsupported-type pass-through and is returned byte-for-byte with no
injection, although the markup `<svg/>` has neither attribute. -/
theorem svg_inject_c4_counterexample :
    handlerV1 envC4 (some "example.com") =
      .ok ⟨200, some "image/svg+xml", .bin (strBytes "<svg/>")⟩ ∧
    jsIncludesI "<svg/>" "width=" = false ∧
    jsIncludesI "<svg/>" "height=" = false := by
  refine ⟨by rfl, by decide, by decide⟩

/-- C4 amended: in the loop-based normalizer (`part_001` / variant 2) an
accepted candidate whose content type contains `svg` is never rasterized:
the response is the fetched markup transformed by `injectWH` and served
as `image/svg+xml`, where `injectWH` adds `width` / `height` to the first
`<svg` occurrence only when the respective attribute is absent (markup
already carrying both is returned verbatim); in index.ts variant 1, SVG
content instead passes through unmodified with its original content type
and no attribute injection. -/
theorem svg_inject_c4_amended :
    (∀ (env : Env) (i : Icon) (fr : FResp),
      jsStartsWith i.href "data:image/svg+xml" = false →
      env.fetchResult i.href = some fr →
      fr.ok = true →
      jsStartsWith (ctOf fr) "image/" = true →
      validLen fr.contentLength = true →
      jsIncludes (ctOf fr) "svg" = true →
      processIcon env i = some ⟨200, some "image/svg+xml", .text (injectWH fr.textBody)⟩) ∧
    (∀ s, jsIncludesI s "width=" = true → jsIncludesI s "height=" = true → injectWH s = s) ∧
    (∀ (env : Env) (t : String) (u : URLm) (fr : FResp),
      env.parseURL (prefixScheme t) = some u →
      env.fetchResult (findBestIcon env u) = some fr →
      fr.ok = true →
      supportedV1 (ctOfV1 fr) = false →
      handlerV1 env (some t) = .ok ⟨200, some (ctOfV1 fr), .bin fr.bytes⟩) := by
  refine ⟨?_, ?_, ?_⟩
  · intro env i fr hd hf hok hct hlen hsvg
    simp [processIcon, hd, hf, hok, hct, hlen, hsvg]
  · intro s hw hh
    unfold injectWH
    rw [if_pos hw, if_pos hh]
  · intro env t u fr hp hf hok hsupp
    simp [handlerV1, hp, hf, hok, hsupp]

/-- C4 witness: the loop-based SVG branch serving markup that already has
both attributes verbatim, and variant 1's pass-through. -/
theorem svg_inject_c4_witness :
    processIcon envC4W ⟨"https://x/a.svg", "unknown"⟩ =
      some ⟨200, some "image/svg+xml", .text "<svg width=\"5\" height=\"6\"/>"⟩ ∧
    handlerV1 envC4 (some "example.com") =
      .ok ⟨200, some "image/svg+xml", .bin (strBytes "<svg/>")⟩ := by
  constructor
  · have h1 := svg_inject_c4_amended.1 envC4W ⟨"https://x/a.svg", "unknown"⟩
      ⟨true, 200, some "image/svg+xml", none, "<svg width=\"5\" height=\"6\"/>", []⟩
      (by decide) (by rfl) (by decide) (by decide) (by decide) (by decide)
    have h2 := svg_inject_c4_amended.2.1 "<svg width=\"5\" height=\"6\"/>" (by decide) (by decide)
    rw [h1, h2]
  · exact svg_inject_c4_amended.2.2 envC4 "example.com" uC1
      ⟨true, 200, some "image/svg+xml", none, "<svg/>", strBytes "<svg/>"⟩ (by decide) (by rfl)
      (by decide) (by decide)

/-! ## Claim C9 -/

/-- C9 counterexample: the claim "for every request whose target is
missing or unparseable as a URL the handler surfaces a 400 and no
exception escapes" is false for variant 1: `new URL(targetParam)` sits
outside the try block, so a target that fails to parse (here
`"https://"`) escapes the handler as an uncaught exception instead of a
400 response. -/
theorem input_error_c9_counterexample :
    handlerV1 envFail (some "https://") = .error () ∧
    envFail.parseURL "https://" = none := by
  exact ⟨rfl, rfl⟩

/-- C9 amended: a missing target yields a 400 in both handlers, and the
path-based handler (`part_001`) also maps an unparseable target to a 400
with no escaping exception (provided the path percent-decodes); but in
the query-parameter handler (variant 1) an unparseable target throws out
of the handler uncaught instead of producing a 400. -/
theorem input_error_c9_amended :
    (∀ env : Env, handlerV1 env none = .ok ⟨400, none, .text "Missing url parameter"⟩) ∧
    (∀ (env : Env) (t : String), env.parseURL (prefixScheme t) = none →
      handlerV1 env (some t) = .error ()) ∧
    (∀ (env : Env) (pathname : String),
      env.decodeURIComponent (pathname.drop 1) = some "" →
      handler1 env pathname =
        .ok ⟨400, none, .text "Please provide a domain or URL in the path, e.g., /example.com"⟩) ∧
    (∀ (env : Env) (pathname p : String),
      env.decodeURIComponent (pathname.drop 1) = some p → p ≠ "" →
      env.parseURL (prefixScheme p) = none →
      handler1 env pathname =
        .ok ⟨400, none, .text ("Invalid domain or URL provided: " ++ prefixScheme p)⟩) := by
  refine ⟨fun env => rfl, ?_, ?_, ?_⟩
  · intro env t hp
    simp [handlerV1, hp]
  · intro env pathname hd
    simp [handler1, hd]
  · intro env pathname p hd hp hparse
    simp [handler1, hd, hp, hparse]

/-- C9 witness: the amended behaviours at concrete requests. -/
theorem input_error_c9_witness :
    handlerV1 envFail none = .ok ⟨400, none, .text "Missing url parameter"⟩ ∧
    handlerV1 envFail (some "x") = .error () ∧
    handler1 envFail "/" =
      .ok ⟨400, none, .text "Please provide a domain or URL in the path, e.g., /example.com"⟩ ∧
    handler1 envFail "/x" = .ok ⟨400, none, .text "Invalid domain or URL provided: https://x"⟩ := by
  refine ⟨input_error_c9_amended.1 envFail, input_error_c9_amended.2.1 envFail "x" (by rfl),
    input_error_c9_amended.2.2.1 envFail "/" (by rfl), ?_⟩
  have h := input_error_c9_amended.2.2.2 envFail "/x" "x" (by rfl) (by decide) (by rfl)
  rw [h]
  rfl

/-! ## Claim C10 -/

/-- C10: `fetchIconList` never returns an empty list — when HTTPS, HTTP
and both third-party probes yield nothing it appends the placeholder
data-URI SVG — and consequently the caller's empty-list 404 branch
("No icons found from API.") is unreachable: no successful run of the
`part_001` handler can produce that response. -/
theorem iconlist_nonempty_c10 :
    (∀ (env : Env) (domain : String) (l : List Icon),
      fetchIconList env domain = .ok l → l ≠ []) ∧
    (∀ (env : Env) (pathname : String) (r : ResponseM),
      handler1 env pathname = .ok r → r ≠ respNoIcons) := by
  constructor
  · intro env domain l h
    exact fetchIconList_ne_nil h
  · intro env pathname r h
    unfold handler1 at h
    split at h
    · cases h
    · split at h
      · cases h
        simp [respNoIcons]
      · split at h
        · cases h
          simp [respNoIcons]
        · rename_i p hp0 hp u hu
          unfold pipeline1 at h
          split at h
          · cases h
          · rename_i icons heq
            split at h
            · rename_i hempty
              exact absurd (listIsEmpty_iff.mp hempty) (fetchIconList_ne_nil heq)
            · split at h
              · rename_i resp hr
                cases h
                have hst := resolveLoop_status hr
                intro he
                rw [he] at hst
                simp [respNoIcons] at hst
              · cases h
                intro he
                unfold respNoIcons at he
                injection he with hs hc hb
                injection hb with hbs
                exact ne_noicons_msg u.hostname hbs

/-- C10 witness: a concrete non-empty `fetchIconList` result and a
concrete successful handler run whose response differs from the
unreachable "No icons found" 404. -/
theorem iconlist_nonempty_c10_witness :
    ([⟨"https://example.com/a.png", "32x32"⟩,
      ⟨"https://icons.duckduckgo.com/ip3/example.com.ico", "unknown"⟩,
      ⟨"https://www.google.com/s2/favicons?domain=example.com&sz=128", "unknown"⟩] :
        List Icon) ≠ [] ∧
    (⟨400, none, .text "Invalid domain or URL provided: https://x"⟩ : ResponseM) ≠ respNoIcons := by
  refine ⟨iconlist_nonempty_c10.1 envC5 "example.com" _ (by decide),
    iconlist_nonempty_c10.2 envFail "/x" _ (by rfl)⟩

/-! ## Claim C8 -/

set_option maxRecDepth 8192 in
/-- C8: for a valid target, when every discovery fetch and every fallback
fetch fails, the pipeline never lets an exception escape: the `part_001`
handler synthesizes the single-letter monogram placeholder (the data-URI
SVG candidate survives, is base64-decoded and served as `image/svg+xml`
with injected dimensions), and the variant-1 handler answers with its
catch-all 404. -/
theorem exhaustion_c8 (env : Env) (pathname p t : String) (u u2 : URLm)
    (hall : allFail env) :
    (env.decodeURIComponent (pathname.drop 1) = some p → p ≠ "" →
      env.parseURL (prefixScheme p) = some u →
      (∀ c ∈ (firstLetterUpper u.hostname).data, c.toNat < 256) →
      handler1 env pathname = .ok (placeholderResp u.hostname)) ∧
    (env.parseURL (prefixScheme t) = some u2 →
      handlerV1 env (some t) = .ok (notFoundV1 u2)) := by
  obtain ⟨hga, hpr, hfr, hpf, hhf, hmf⟩ := hall
  constructor
  · intro hdec hp hparse hascii
    have hpo : ∀ s, probeOk env s = false := by
      intro s
      unfold probeOk
      rw [hpr]
    have hfilt : ∀ l : List String, List.filter (probeOk env) l = [] := by
      intro l
      induction l with
      | nil => rfl
      | cons a as ih =>
        rw [List.filter_cons, hpo, ih]
        rfl
    have hempty : preIcons env u.hostname = [] := by
      unfold preIcons markupIcons
      rw [hga, hga, hfilt]
      rfl
    have hascii_all :
        (svgContent u.hostname).data.all (fun c => decide (c.toNat < 256)) = true := by
      unfold svgContent
      simp only [String.data_append, List.all_append, Bool.and_eq_true]
      refine ⟨⟨by decide, ?_⟩, by decide⟩
      exact List.all_eq_true.mpr fun c hc => decide_eq_true (hascii c hc)
    obtain ⟨hbt, hat⟩ := atob_btoa (svgContent u.hostname) hascii_all
    set enc : String := ⟨b64encodeBytes ((svgContent u.hostname).data.map Char.toNat)⟩ with henc
    have hficon : fetchIconList env u.hostname =
        .ok [⟨"data:image/svg+xml;base64," ++ enc, "100x100"⟩] := by
      unfold fetchIconList
      rw [if_pos (by rw [hempty]; rfl), hbt]
    have hstart : jsStartsWith ("data:image/svg+xml;base64," ++ enc) "data:image/svg+xml" =
        true := by
      apply jsStartsWith_append
      decide
    have hsplit : (jsSplit ',' ("data:image/svg+xml;base64," ++ enc)).get? 1 = some enc := by
      unfold jsSplit
      rw [String.data_append]
      rw [show ("data:image/svg+xml;base64," : String).data =
        ("data:image/svg+xml;base64" : String).data ++ [','] from by decide]
      rw [List.append_assoc, List.singleton_append]
      rw [splitOnChar_append_sep (by decide) (show ',' ∉ enc.data from b64_nocomma _)]
      rfl
    have hproc : processIcon env (⟨"data:image/svg+xml;base64," ++ enc, "100x100"⟩ : Icon) =
        some ⟨200, some "image/svg+xml", .text (injectWH40both (svgContent u.hostname))⟩ := by
      unfold processIcon
      dsimp only
      rw [hstart, hsplit]
      show (match atob enc with
        | none => none
        | some svgText =>
          some (⟨200, some "image/svg+xml", BodyM.text (injectWH40both svgText)⟩ : ResponseM)) =
        some (⟨200, some "image/svg+xml",
          BodyM.text (injectWH40both (svgContent u.hostname))⟩ : ResponseM)
      rw [hat]
    have hloop : resolveLoop env
        (rankedIcons [(⟨"data:image/svg+xml;base64," ++ enc, "100x100"⟩ : Icon)]) =
        some (placeholderResp u.hostname) := by
      show resolveLoop env [(⟨"data:image/svg+xml;base64," ++ enc, "100x100"⟩ : Icon)] =
        some (placeholderResp u.hostname)
      simp only [resolveLoop, hproc]
      rfl
    unfold handler1
    rw [hdec]
    show (if p = "" then
        Except.ok ⟨400, none, .text "Please provide a domain or URL in the path, e.g., /example.com"⟩
      else
        match env.parseURL (prefixScheme p) with
        | none =>
          Except.ok ⟨400, none, .text ("Invalid domain or URL provided: " ++ prefixScheme p)⟩
        | some u => pipeline1 env u.hostname) = Except.ok (placeholderResp u.hostname)
    rw [if_neg hp, hparse]
    show pipeline1 env u.hostname = Except.ok (placeholderResp u.hostname)
    unfold pipeline1
    rw [hficon]
    show (if ([(⟨"data:image/svg+xml;base64," ++ enc, "100x100"⟩ : Icon)] : List Icon).isEmpty
        then Except.ok respNoIcons
        else
          match resolveLoop env
              (rankedIcons [(⟨"data:image/svg+xml;base64," ++ enc, "100x100"⟩ : Icon)]) with
          | some r => Except.ok r
          | none =>
            Except.ok ⟨404, none,
              .text ("Could not find or process a valid icon for " ++ u.hostname ++ ".")⟩) =
      Except.ok (placeholderResp u.hostname)
    rw [if_neg (by simp), hloop]
  · intro hparse2
    have hbest : findBestIcon env u2 = googleFallback u2 := by
      unfold findBestIcon discover
      rw [hpf]
      cases hres : env.resolveStr "/favicon.ico" u2.href with
      | none => simp [hres]
      | some fav => simp [hres, hhf]
    simp only [handlerV1, hparse2, hbest, hfr]

/-- C8 witness: a concrete all-failing environment where the target still
parses — the `part_001` handler emits the monogram placeholder for
`example.com` and the variant-1 handler emits its 404. -/
theorem exhaustion_c8_witness :
    handler1 envC8 "/example.com" = .ok (placeholderResp "example.com") ∧
    handlerV1 envC8 (some "example.com") = .ok (notFoundV1 uC1) := by
  have h := exhaustion_c8 envC8 "/example.com" "example.com" "example.com" uC1 uC1
    ⟨fun _ => rfl, fun _ => rfl, fun _ => rfl, fun _ => rfl, fun _ => rfl, fun _ => rfl⟩
  exact ⟨h.1 rfl (by decide) (by rfl) (by decide), h.2 (by rfl)⟩

end CfIcon
